import Mathlib

/-!
Verification of the ReAct control loop, response parser and action executor
of `browser_agent.py` (class `BrowserAgent`), via a shallow embedding.

Conventions of the embedding:
* Python strings are Lean `String`s; the Python built-ins used by the source
  (`str.strip`, `str.startswith`, `str.replace`, `str.split`, `in`,
  `str.index` / `str.rindex`, slices) are modelled by the `py*` helpers
  below, each faithful to CPython semantics on the inputs in play
  (`pyStrip` strips the ASCII whitespace characters).
* `json.loads` is modelled by `json_loads`, a fuel-bounded recursive-descent
  parser of the JSON grammar CPython's `json` module accepts (objects,
  arrays, strings with escapes, integers — non-integer numeric literals are
  carried as raw tokens — `true` / `false` / `null` and the CPython
  extensions `NaN` / `Infinity` / `-Infinity`).  `none` stands for
  `json.JSONDecodeError`.
* Code that can raise a Python exception returns `Except String α`;
  `Except.error` carries the exception's class/message.
* The Azure OpenAI client and the Playwright page are the external
  collaborators: the model capability is an oracle `Nat → Except String
  String` (the text generated at each iteration, or a raised error) and the
  page is a `PageBackend` of oracles, with the calls issued to it logged as
  a `List PageCall`.
-/

/-- The whitespace characters Python `str.strip()` removes from ASCII text. -/
def isPySpace (c : Char) : Bool :=
  c = ' ' || c = '\t' || c = '\n' || c = '\r' || c = '\x0b' || c = '\x0c'

/-- Model of Python `s.strip()`: drop leading and trailing whitespace. -/
def pyStrip (s : String) : String :=
  (((s.toList.dropWhile isPySpace).reverse.dropWhile isPySpace).reverse).asString

/-- Model of Python `s.startswith(p)`. -/
def pyStartsWith (s p : String) : Bool :=
  p.toList.isPrefixOf s.toList

/-- Model of Python `s.split(chr)` for a one-character separator:
every occurrence splits, empty pieces kept, `""` gives `[""]`. -/
def pySplitOn (sep : Char) (s : String) : List String :=
  (s.toList.foldr
    (fun c acc =>
      match acc with
      | [] => [[c]]
      | a :: as => if c = sep then [] :: a :: as else (c :: a) :: as)
    [[]]).map List.asString

/-- Model of Python `c in s` for a single character. -/
def pyContains (s : String) (c : Char) : Bool :=
  s.toList.contains c

/-- One pass of Python `s.replace(pat, rep)` over the character list, for a
non-empty pattern `p :: ps`: every non-overlapping occurrence, scanned left
to right, is replaced by `rep`.  The fuel only bounds the recursion (each
step consumes at least one character, so fuel equal to the input length is
always enough, and `pyReplace` passes exactly that). -/
def pyReplaceAux (p : Char) (ps rep : List Char) : Nat → List Char → List Char
  | 0, l => l
  | _ + 1, [] => []
  | fuel + 1, c :: cs =>
    if (p :: ps).isPrefixOf (c :: cs) then
      rep ++ pyReplaceAux p ps rep fuel (cs.drop ps.length)
    else
      c :: pyReplaceAux p ps rep fuel cs

/-- Model of Python `s.replace(pat, rep)` (the source only replaces
non-empty marker strings; an empty pattern is returned unchanged). -/
def pyReplace (s pat rep : String) : String :=
  match pat.toList with
  | [] => s
  | p :: ps => (pyReplaceAux p ps rep.toList s.toList.length s.toList).asString

/-- Model of Python slicing `s[a : b]` combined with `s.index("{")` and
`s.rindex("}") + 1`: the substring from the first `{` to the last `}`,
both included (only evaluated when both characters are present). -/
def extractBraced (s : String) : String :=
  let cs := s.toList
  let a := cs.findIdx (fun c => c = '{')
  let b := cs.length - 1 - cs.reverse.findIdx (fun c => c = '}')
  ((cs.drop a).take (b + 1 - a)).asString

/-- A Python value produced by `json.loads`: the JSON data model, with
non-integer numeric literals kept as their raw token. -/
inductive JVal where
  | null : JVal
  | bool : Bool → JVal
  | num : Int → JVal
  | decimal : String → JVal
  | str : String → JVal
  | arr : List JVal → JVal
  | obj : List (String × JVal) → JVal

/-- Model of Python `str(v)` as an f-string interpolates a parsed JSON
value (only the shapes the executor ever formats). -/
def pyToStr : JVal → String
  | .null => "None"
  | .bool true => "True"
  | .bool false => "False"
  | .num n => toString n
  | .decimal s => s
  | .str s => s
  | .arr _ => "[...]"
  | .obj _ => "\x7b...\x7d"

/-- Model of Python `dict.get(key, default)` on the pairs `json.loads`
produced: with a duplicated key the later value wins, as in a CPython dict
built from parsed pairs. -/
def pyDictGet (kvs : List (String × JVal)) (key : String) : Option JVal :=
  kvs.foldl (fun acc kv => if kv.1 = key then some kv.2 else acc) none

/-- The whitespace `json.loads` skips between tokens. -/
def isJsonWs (c : Char) : Bool :=
  c = ' ' || c = '\t' || c = '\n' || c = '\r'

/-- Skip JSON inter-token whitespace. -/
def skipJWs (cs : List Char) : List Char :=
  cs.dropWhile isJsonWs

/-- Hex digit value, if the character is one. -/
def hexVal (c : Char) : Option Nat :=
  if '0' ≤ c ∧ c ≤ '9' then some (c.toNat - '0'.toNat)
  else if 'a' ≤ c ∧ c ≤ 'f' then some (c.toNat - 'a'.toNat + 10)
  else if 'A' ≤ c ∧ c ≤ 'F' then some (c.toNat - 'A'.toNat + 10)
  else none

/-- JSON string body, after the opening quote: strict mode, so raw control
characters are refused; escapes as in the JSON grammar. -/
def jString (acc : List Char) : List Char → Option (String × List Char)
  | [] => none
  | '"' :: rest => some (acc.reverse.asString, rest)
  | '\\' :: 'u' :: h1 :: h2 :: h3 :: h4 :: rest =>
    match hexVal h1, hexVal h2, hexVal h3, hexVal h4 with
    | some a, some b, some c, some d =>
      jString (Char.ofNat (((a * 16 + b) * 16 + c) * 16 + d) :: acc) rest
    | _, _, _, _ => none
  | '\\' :: e :: rest =>
    (match e with
     | '"' => some '"'
     | '\\' => some '\\'
     | '/' => some '/'
     | 'b' => some (Char.ofNat 8)
     | 'f' => some (Char.ofNat 12)
     | 'n' => some '\n'
     | 'r' => some '\r'
     | 't' => some '\t'
     | _ => none).bind
      (fun c => jString (c :: acc) rest)
  | c :: rest =>
    if c.toNat < 0x20 then none else jString (c :: acc) rest

/-- Digits prefix of the input, with the rest. -/
def jDigits : List Char → List Char × List Char
  | [] => ([], [])
  | c :: rest =>
    if c.isDigit then
      let (ds, r) := jDigits rest
      (c :: ds, r)
    else ([], c :: rest)

/-- JSON exponent part after `e` / `E`: an optional sign then digits. -/
def jExpPart : List Char → Option (List Char × List Char)
  | s :: r =>
    if s = '+' ∨ s = '-' then
      match jDigits r with
      | ([], _) => none
      | (ds, r1) => some (s :: ds, r1)
    else
      match jDigits (s :: r) with
      | ([], _) => none
      | (ds, r1) => some (ds, r1)
  | [] => none

/-- JSON number token after an optional leading minus sign: `int frac? exp?`
with `int = 0 | [1-9][0-9]*`.  Returns the token's characters (sign
excluded) and whether a fraction or exponent part made it non-integral. -/
def jNumberTail (cs : List Char) : Option (List Char × Bool × List Char) :=
  match jDigits cs with
  | ([], _) => none
  | (d :: ds, rest) =>
    if d = '0' ∧ ds ≠ [] then none
    else
      let intPart := d :: ds
      match rest with
      | '.' :: r =>
        match jDigits r with
        | ([], _) => none
        | (fs, r1) =>
          match r1 with
          | e :: r2 =>
            if e = 'e' ∨ e = 'E' then
              match jExpPart r2 with
              | none => none
              | some (es, r3) => some (intPart ++ '.' :: fs ++ e :: es, true, r3)
            else some (intPart ++ '.' :: fs, true, e :: r2)
          | [] => some (intPart ++ '.' :: fs, true, [])
      | e :: r2 =>
        if e = 'e' ∨ e = 'E' then
          match jExpPart r2 with
          | none => none
          | some (es, r3) => some (intPart ++ e :: es, true, r3)
        else some (intPart, false, e :: r2)
      | [] => some (intPart, false, [])

/-- Digits to the integer they denote. -/
def digitsToInt (ds : List Char) : Int :=
  ds.foldl (fun acc c => acc * 10 + (c.toNat - '0'.toNat : Int)) 0

mutual

/-- One JSON value at the head of the input (leading whitespace already
skipped by the caller), fuel-bounded. -/
def jValue : Nat → List Char → Option (JVal × List Char)
  | 0, _ => none
  | _ + 1, [] => none
  | fuel + 1, c :: cs =>
    match c :: cs with
    | '{' :: rest => jObjBody fuel (skipJWs rest) []
    | '[' :: rest => jArrBody fuel (skipJWs rest) []
    | '"' :: rest =>
      match jString [] rest with
      | some (s, r) => some (.str s, r)
      | none => none
    | 't' :: 'r' :: 'u' :: 'e' :: rest => some (.bool true, rest)
    | 'f' :: 'a' :: 'l' :: 's' :: 'e' :: rest => some (.bool false, rest)
    | 'n' :: 'u' :: 'l' :: 'l' :: rest => some (.null, rest)
    | 'N' :: 'a' :: 'N' :: rest => some (.decimal "NaN", rest)
    | 'I' :: 'n' :: 'f' :: 'i' :: 'n' :: 'i' :: 't' :: 'y' :: rest =>
      some (.decimal "Infinity", rest)
    | '-' :: 'I' :: 'n' :: 'f' :: 'i' :: 'n' :: 'i' :: 't' :: 'y' :: rest =>
      some (.decimal "-Infinity", rest)
    | '-' :: rest =>
      match jNumberTail rest with
      | some (tok, isDec, r) =>
        some (if isDec then .decimal ('-' :: tok).asString
              else .num (-(digitsToInt tok)), r)
      | none => none
    | _ =>
      if c.isDigit then
        match jNumberTail (c :: cs) with
        | some (tok, isDec, r) =>
          some (if isDec then .decimal tok.asString else .num (digitsToInt tok), r)
        | none => none
      else none

/-- JSON object members after `{` (whitespace skipped): either `}` or a
comma-separated member list. -/
def jObjBody : Nat → List Char → List (String × JVal) → Option (JVal × List Char)
  | 0, _, _ => none
  | _ + 1, [], _ => none
  | fuel + 1, c :: cs, acc =>
    match c :: cs with
    | '}' :: rest => some (.obj acc.reverse, rest)
    | '"' :: rest =>
      match jString [] rest with
      | none => none
      | some (k, r1) =>
        match skipJWs r1 with
        | ':' :: r2 =>
          match jValue fuel (skipJWs r2) with
          | none => none
          | some (v, r3) =>
            match skipJWs r3 with
            | ',' :: r4 => jObjMore fuel (skipJWs r4) ((k, v) :: acc)
            | '}' :: r4 => some (.obj ((k, v) :: acc).reverse, r4)
            | _ => none
        | _ => none
    | _ => none

/-- A member after a comma (a trailing comma is a parse error). -/
def jObjMore : Nat → List Char → List (String × JVal) → Option (JVal × List Char)
  | 0, _, _ => none
  | _ + 1, [], _ => none
  | fuel + 1, c :: cs, acc =>
    match c :: cs with
    | '"' :: rest =>
      match jString [] rest with
      | none => none
      | some (k, r1) =>
        match skipJWs r1 with
        | ':' :: r2 =>
          match jValue fuel (skipJWs r2) with
          | none => none
          | some (v, r3) =>
            match skipJWs r3 with
            | ',' :: r4 => jObjMore fuel (skipJWs r4) ((k, v) :: acc)
            | '}' :: r4 => some (.obj ((k, v) :: acc).reverse, r4)
            | _ => none
        | _ => none
    | _ => none

/-- JSON array elements after `[` (whitespace skipped). -/
def jArrBody : Nat → List Char → List JVal → Option (JVal × List Char)
  | 0, _, _ => none
  | _ + 1, [], _ => none
  | fuel + 1, c :: cs, acc =>
    match c :: cs with
    | ']' :: rest => some (.arr acc.reverse, rest)
    | _ =>
      match jValue fuel (c :: cs) with
      | none => none
      | some (v, r1) =>
        match skipJWs r1 with
        | ',' :: r2 => jArrMore fuel (skipJWs r2) (v :: acc)
        | ']' :: r2 => some (.arr (v :: acc).reverse, r2)
        | _ => none

/-- An element after a comma (a trailing comma is a parse error). -/
def jArrMore : Nat → List Char → List JVal → Option (JVal × List Char)
  | 0, _, _ => none
  | _ + 1, [], _ => none
  | fuel + 1, c :: cs, acc =>
    match jValue fuel (c :: cs) with
    | none => none
    | some (v, r1) =>
      match skipJWs r1 with
      | ',' :: r2 => jArrMore fuel (skipJWs r2) (v :: acc)
      | ']' :: r2 => some (.arr (v :: acc).reverse, r2)
      | _ => none

end

/-- Model of Python `json.loads`: `none` is a raised `json.JSONDecodeError`.
The fuel `s.length + 2` dominates the recursion depth, which consumes at
least one input character per unit spent. -/
def json_loads (s : String) : Option JVal :=
  match jValue (s.length + 2) (skipJWs s.toList) with
  | some (v, rest) => if skipJWs rest = [] then some v else none
  | none => none

/-- Dropping a prefix never lengthens a list (used for the termination of
the line scanner below). -/
theorem dropWhile_length_le (p : α → Bool) (l : List α) :
    (l.dropWhile p).length ≤ l.length := by
  induction l with
  | nil => simp [List.dropWhile]
  | cons a as ih =>
    by_cases h : p a = true
    · simp [List.dropWhile, h]
      omega
    · simp [List.dropWhile, h]

/-- The directive `parse_llm_response` returns: the `(thought, action,
params)` triple of the source, with `params` whatever Python value
`json.loads` produced (`{}` when never assigned). -/
structure Directive where
  thought : String
  action : String
  params : JVal

/-- The stop condition of the JSON-accumulation inner loop of
`parse_llm_response`: `lines[i].strip().startswith(("Thought:", "Action:",
"Final Answer:"))`. -/
def markerStop (l : String) : Bool :=
  pyStartsWith (pyStrip l) "Thought:" ||
  pyStartsWith (pyStrip l) "Action:" ||
  pyStartsWith (pyStrip l) "Final Answer:"

/-- The `try`/`except json.JSONDecodeError` block of `parse_llm_response`
(source lines 154-161): strict parse of the accumulated fragment, then —
only when both braces occur in it — a parse of the brace-delimited
substring; that second `json.loads` is not inside any `try`, so its failure
propagates.  `prev` is the value the `params` variable already holds. -/
def parseParams (json_str : String) (prev : JVal) : Except String JVal :=
  match json_loads json_str with
  | some v => .ok v
  | none =>
    if pyContains json_str '{' ∧ pyContains json_str '}' then
      match json_loads (extractBraced json_str) with
      | some v => .ok v
      | none => .error "json.JSONDecodeError"
    else .ok prev

/-- The `while i < len(lines)` scan of `parse_llm_response`, one marker
dispatch per step.  An `Action Input:` step accumulates the stripped
following lines (joined by a newline) until one satisfies `markerStop` or
the input ends, then continues the scan at that stopping line — the
source's `i -= 1` before the outer `i += 1`.  The fuel only bounds the
recursion: every step consumes at least one line, so fuel equal to the
number of lines (what `parse_llm_response` passes) is always enough. -/
def parseLines (thought action : String) (params : JVal) :
    Nat → List String → Except String Directive
  | _, [] => .ok ⟨thought, action, params⟩
  | 0, _ :: _ => .ok ⟨thought, action, params⟩
  | fuel + 1, l :: rest =>
    let line := pyStrip l
    if pyStartsWith line "Thought:" then
      parseLines (pyStrip (pyReplace line "Thought:" "")) action params fuel rest
    else if pyStartsWith line "Action:" then
      parseLines thought (pyStrip (pyReplace line "Action:" "")) params fuel rest
    else if pyStartsWith line "Action Input:" then
      let first := pyStrip (pyReplace line "Action Input:" "")
      let body := rest.takeWhile (fun x => !markerStop x)
      let rest1 := rest.dropWhile (fun x => !markerStop x)
      let json_str := body.foldl (fun acc x => acc ++ "\n" ++ pyStrip x) first
      match parseParams json_str params with
      | .ok v => parseLines thought action v fuel rest1
      | .error e => .error e
    else if pyStartsWith line "Final Answer:" then
      .ok ⟨pyStrip (pyReplace line "Final Answer:" ""), "FINISH", params⟩
    else
      parseLines thought action params fuel rest

/-- Model of `BrowserAgent.parse_llm_response` (source lines 119-170):
split the stripped response on newlines and scan the lines; the result is
the `(thought, action, params)` triple, or a raised `json.JSONDecodeError`
from `parseParams`. -/
def parse_llm_response (response : String) : Except String Directive :=
  parseLines "" "" (JVal.obj [])
    (pySplitOn '\n' (pyStrip response)).length (pySplitOn '\n' (pyStrip response))

/-- The dictionary `execute_action` returns: `{"success": ..., "result":
...}` or `{"success": ..., "error": ...}` (each branch of the source sets
`success` plus exactly one of the other two keys). -/
structure ActionResult where
  success : Bool
  result : Option JVal := none
  error : Option String := none

/-- One call issued to the Playwright page, with the argument values the
source passes (`params.get` defaults already applied). -/
inductive PageCall where
  | goto : JVal → PageCall
  | click : JVal → PageCall
  | fill : JVal → JVal → PageCall
  | text_content : JVal → PageCall
  | screenshot : JVal → PageCall

/-- The Playwright page as an external collaborator: each method either
returns a value (`text_content` may return a string or `None`) or raises,
carrying the exception's message. -/
structure PageBackend where
  goto : JVal → Except String JVal
  click : JVal → Except String JVal
  fill : JVal → JVal → Except String JVal
  text_content : JVal → Except String JVal
  screenshot : JVal → Except String JVal

/-- Model of Python `params.get(key, default)` where `params` is whatever
`json.loads` produced: on a non-dict value the attribute access raises
(`AttributeError`), which the `try` of `execute_action` catches. -/
def pyGet (params : JVal) (key : String) (dflt : JVal) : Except String JVal :=
  match params with
  | .obj kvs => .ok ((pyDictGet kvs key).getD dflt)
  | _ => .error "AttributeError: get"

/-- The `try` body of `execute_action` (source lines 86-114): dispatch on
the action name, one page call per recognized action, and the formatted
result strings of the source.  Returns the raised exception or the result
dict, paired with the page calls issued. -/
def execBody (pg : PageBackend) (action : String) (params : JVal) :
    Except String ActionResult × List PageCall :=
  if action = "navigate" then
    match pyGet params "url" (.str "") with
    | .error e => (.error e, [])
    | .ok url =>
      match pg.goto url with
      | .error e => (.error e, [.goto url])
      | .ok _ =>
        (.ok ⟨true, some (.str ("Navigated to " ++ pyToStr url)), none⟩, [.goto url])
  else if action = "click" then
    match pyGet params "selector" (.str "") with
    | .error e => (.error e, [])
    | .ok selector =>
      match pg.click selector with
      | .error e => (.error e, [.click selector])
      | .ok _ =>
        (.ok ⟨true, some (.str ("Clicked on " ++ pyToStr selector)), none⟩,
         [.click selector])
  else if action = "type" then
    match pyGet params "selector" (.str "") with
    | .error e => (.error e, [])
    | .ok selector =>
      match pyGet params "text" (.str "") with
      | .error e => (.error e, [])
      | .ok text =>
        match pg.fill selector text with
        | .error e => (.error e, [.fill selector text])
        | .ok _ =>
          (.ok ⟨true,
            some (.str ("Typed \'" ++ pyToStr text ++ "\' into " ++ pyToStr selector)),
            none⟩, [.fill selector text])
  else if action = "get_text" then
    match pyGet params "selector" (.str "") with
    | .error e => (.error e, [])
    | .ok selector =>
      match pg.text_content selector with
      | .error e => (.error e, [.text_content selector])
      | .ok text => (.ok ⟨true, some text, none⟩, [.text_content selector])
  else if action = "screenshot" then
    match pyGet params "path" (.str "screenshot.png") with
    | .error e => (.error e, [])
    | .ok path =>
      match pg.screenshot path with
      | .error e => (.error e, [.screenshot path])
      | .ok _ =>
        (.ok ⟨true, some (.str ("Screenshot saved to " ++ pyToStr path)), none⟩,
         [.screenshot path])
  else
    (.ok ⟨false, none, some ("Unknown action: " ++ action)⟩, [])

/-- Model of `BrowserAgent.execute_action` (source lines 72-117): the
not-started guard, then the `try` body with `except Exception` turning any
raised error into `{"success": False, "error": str(e)}`.  Also returns the
page calls issued, so that "no automation call" is a provable statement. -/
def execute_action (page : Option PageBackend) (action : String) (params : JVal) :
    ActionResult × List PageCall :=
  match page with
  | none => (⟨false, none, some "Browser not started"⟩, [])
  | some pg =>
    match execBody pg action params with
    | (.ok r, log) => (r, log)
    | (.error e, log) => (⟨false, none, some e⟩, log)

/-- The five recognized action names, as the dispatch chain tests them. -/
def recognizedActions : List String :=
  ["navigate", "click", "type", "get_text", "screenshot"]

/-- Hexadecimal digit character (lowercase), for `\uXXXX` escapes. -/
def hexDigit (n : Nat) : Char :=
  if n < 10 then Char.ofNat ('0'.toNat + n) else Char.ofNat ('a'.toNat + n - 10)

/-- Four-digit lowercase hex rendering of a code point. -/
def hex4 (n : Nat) : String :=
  String.mk [hexDigit (n / 4096 % 16), hexDigit (n / 256 % 16),
    hexDigit (n / 16 % 16), hexDigit (n % 16)]

/-- How `json.dumps` (defaults, `ensure_ascii=True`) escapes one character
(astral code points are rendered as one `\uXXXX` here rather than a
surrogate pair; no observation content in play leaves the BMP). -/
def jsonEscapeChar (c : Char) : String :=
  if c = '"' then "\\\""
  else if c = '\\' then "\\\\"
  else if c = '\n' then "\\n"
  else if c = '\r' then "\\r"
  else if c = '\t' then "\\t"
  else if c.toNat = 8 then "\\b"
  else if c.toNat = 12 then "\\f"
  else if c.toNat < 0x20 ∨ c.toNat > 0x7e then "\\u" ++ hex4 c.toNat
  else String.mk [c]

/-- `json.dumps` of a string. -/
def json_dumps_str (s : String) : String :=
  "\"" ++ String.join (s.toList.map jsonEscapeChar) ++ "\""

mutual

/-- `json.dumps` of a parsed JSON value, default separators. -/
def dumpJVal : JVal → String
  | .null => "null"
  | .bool true => "true"
  | .bool false => "false"
  | .num n => toString n
  | .decimal s => s
  | .str s => json_dumps_str s
  | .arr xs => "[" ++ dumpJList xs ++ "]"
  | .obj kvs => "\x7b" ++ dumpJObj kvs ++ "\x7d"

/-- Array elements, `", "`-separated. -/
def dumpJList : List JVal → String
  | [] => ""
  | [x] => dumpJVal x
  | x :: y :: xs => dumpJVal x ++ ", " ++ dumpJList (y :: xs)

/-- Object members, `", "`-separated, `": "` after each key. -/
def dumpJObj : List (String × JVal) → String
  | [] => ""
  | [(k, v)] => json_dumps_str k ++ ": " ++ dumpJVal v
  | (k, v) :: m :: kvs =>
    json_dumps_str k ++ ": " ++ dumpJVal v ++ ", " ++ dumpJObj (m :: kvs)

end

/-- `json.dumps(result)` for the dict `execute_action` returned: insertion
order puts `success` first, then whichever of `result` / `error` the branch
set. -/
def json_dumps_result (r : ActionResult) : String :=
  "\x7b\"success\": " ++ (if r.success then "true" else "false") ++
  (match r.result with
   | some v => ", \"result\": " ++ dumpJVal v
   | none => "") ++
  (match r.error with
   | some e => ", \"error\": " ++ json_dumps_str e
   | none => "") ++ "\x7d"

/-- One transcript entry: `{"role": ..., "content": ...}`. -/
structure PyMsg where
  role : String
  content : String

/-- Model of `BrowserAgent.create_system_prompt` (source lines 172-201). -/
def create_system_prompt : String :=
  "You are a browser automation agent. You can interact with web pages using the following actions:\n\n1. navigate - Navigate to a URL\n   Action Input: \x7b\"url\": \"https://example.com\"\x7d\n\n2. click - Click on an element\n   Action Input: \x7b\"selector\": \"button#submit\"\x7d\n\n3. type - Type text into an element\n   Action Input: \x7b\"selector\": \"input#search\", \"text\": \"search query\"\x7d\n\n4. get_text - Get text from an element\n   Action Input: \x7b\"selector\": \"h1\"\x7d\n\n5. screenshot - Take a screenshot\n   Action Input: \x7b\"path\": \"screenshot.png\"\x7d\n\nUse the ReAct format to reason and act:\n\nThought: [Your reasoning about what to do next]\nAction: [The action to take: navigate, click, type, get_text, or screenshot]\nAction Input: [JSON parameters for the action]\n\nAfter receiving the observation, continue reasoning. When you\'ve completed the task, use:\n\nFinal Answer: [Summary of what was accomplished]\n\nAlways reason step by step and explain your actions."

/-- The steering message of the no-action branch (source lines 257-260). -/
def clarification_message : String :=
  "Please provide a valid action in the specified format."

/-- The fixed exhaustion message (source line 262). -/
def exhaustion_message : String :=
  "Maximum iterations reached without completion."

/-- `self.max_iterations` as `__init__` sets it (source line 40). -/
def default_max_iterations : Nat := 10

/-- An observable event of a run: a model invocation (with its iteration
index), an executor invocation (with the action name), or one of the three
release steps of `stop_browser` (source lines 49-56). -/
inductive AgentEvent where
  | modelCall : Nat → AgentEvent
  | execCall : String → AgentEvent
  | closePage : AgentEvent
  | closeBrowser : AgentEvent
  | stopPlaywright : AgentEvent

/-- What one entry into the `for iteration in range(...)` loop produces:
the outcome (`some` reasoning on `Final Answer`, `none` on falling out of
the loop, `Except.error` on a propagating exception), the invocation
counts, the transcript and the events, in order. -/
structure LoopOut where
  result : Except String (Option String)
  modelCalls : Nat
  execCalls : Nat
  msgs : List PyMsg
  events : List AgentEvent

/-- The `for iteration in range(self.max_iterations)` loop of `run`
(source lines 222-260), with the model capability as an oracle indexed by
the iteration counter and the executor as an oracle that may raise.  Each
iteration: invoke the model (a failure propagates), append the assistant
message, parse it (a `json.JSONDecodeError` propagates), then return on
`FINISH`, execute-and-observe on a non-empty action, or append the
clarification message. -/
def loop (model : Nat → Except String String)
    (execA : String → JVal → Except String ActionResult) :
    Nat → Nat → List PyMsg → LoopOut
  | 0, _, msgs => ⟨.ok none, 0, 0, msgs, []⟩
  | fuel + 1, iter, msgs =>
    match model iter with
    | .error e => ⟨.error e, 1, 0, msgs, [.modelCall iter]⟩
    | .ok text =>
      let msgs1 := msgs ++ [⟨"assistant", text⟩]
      match parse_llm_response text with
      | .error e => ⟨.error e, 1, 0, msgs1, [.modelCall iter]⟩
      | .ok d =>
        if d.action = "FINISH" then
          ⟨.ok (some d.thought), 1, 0, msgs1, [.modelCall iter]⟩
        else if d.action ≠ "" then
          match execA d.action d.params with
          | .error e => ⟨.error e, 1, 1, msgs1, [.modelCall iter, .execCall d.action]⟩
          | .ok res =>
            let msgs2 := msgs1 ++
              [⟨"user", "Observation: " ++ json_dumps_result res⟩]
            let r := loop model execA fuel (iter + 1) msgs2
            ⟨r.result, r.modelCalls + 1, r.execCalls + 1, r.msgs,
              .modelCall iter :: .execCall d.action :: r.events⟩
        else
          let msgs2 := msgs1 ++ [⟨"user", clarification_message⟩]
          let r := loop model execA fuel (iter + 1) msgs2
          ⟨r.result, r.modelCalls + 1, r.execCalls, r.msgs,
            .modelCall iter :: r.events⟩

/-- What `run` produces: its return value or propagated exception, the
invocation counts, the final transcript, and the events (release steps
included). -/
structure RunResult where
  result : Except String String
  modelCalls : Nat
  execCalls : Nat
  msgs : List PyMsg
  events : List AgentEvent

/-- The events `stop_browser` emits once the browser is started: close the
page, close the browser, stop Playwright (source lines 49-56). -/
def stop_browser_events : List AgentEvent :=
  [.closePage, .closeBrowser, .stopPlaywright]

/-- Model of `BrowserAgent.run` (source lines 203-265): seed the transcript
with the system prompt and the task message, run the bounded loop, map its
outcome (`none` becomes the exhaustion message), and — this models the
`try`/`finally` — append the `stop_browser` events on every path, the
propagated-exception one included. -/
def run (model : Nat → Except String String)
    (execA : String → JVal → Except String ActionResult)
    (task : String) (maxIter : Nat) : RunResult :=
  let msgs0 : List PyMsg :=
    [⟨"system", create_system_prompt⟩, ⟨"user", "Task: " ++ task⟩]
  let r := loop model execA maxIter 0 msgs0
  { result :=
      match r.result with
      | .ok (some t) => .ok t
      | .ok none => .ok exhaustion_message
      | .error e => .error e
    modelCalls := r.modelCalls
    execCalls := r.execCalls
    msgs := r.msgs
    events := r.events ++ stop_browser_events }

/-- Two prefixes of one list start with the same element. -/
theorem isPrefixOf_head_eq {a b : Char} {as bs l : List Char}
    (ha : List.isPrefixOf (a :: as) l = true)
    (hb : List.isPrefixOf (b :: bs) l = true) : a = b := by
  rw [List.isPrefixOf_iff_prefix] at ha hb
  cases l with
  | nil => exact absurd ha.length_le (by simp)
  | cons c cs =>
    rw [List.cons_prefix_cons] at ha hb
    exact ha.1.trans hb.1.symm

/-- A string starting with `p` does not start with a `q` whose first
character differs from the first character of `p`. -/
theorem pyStartsWith_ne_first {s p q : String} {a b : Char} {ps qs : List Char}
    (hp : p.toList = a :: ps) (hq : q.toList = b :: qs) (hab : a ≠ b)
    (h : pyStartsWith s p = true) : pyStartsWith s q = false := by
  unfold pyStartsWith at h ⊢
  rw [hp] at h
  refine Bool.eq_false_iff.mpr ?_
  intro hc
  rw [hq] at hc
  exact hab (isPrefixOf_head_eq h hc)

/-- C1 — the `except` fallback itself raises: on the response
`"Action Input: {invalid}"` the accumulated fragment `"{invalid}"` fails
strict `json.loads`, contains both braces, and the brace-delimited
substring (the fragment itself) fails the second, unprotected `json.loads`
— so `parse_llm_response` raises a `json.JSONDecodeError` instead of
returning empty parameters. -/
theorem parse_llm_response_raises_on_braced_garbage :
    parse_llm_response "Action Input: {invalid}" = .error "json.JSONDecodeError" := rfl

/-- C6 (amended) — a line whose stripped form begins with `Final Answer:`
makes the scan return at once: action becomes the sentinel `FINISH`,
reasoning becomes the line with every occurrence of `Final Answer:`
removed and the result stripped, and the lines after it (`rest`) do not
influence the result. -/
theorem final_answer_line_terminates_scan (thought action : String) (params : JVal)
    (fuel : Nat) (l : String) (rest : List String)
    (h : pyStartsWith (pyStrip l) "Final Answer:" = true) :
    parseLines thought action params (fuel + 1) (l :: rest) =
      .ok ⟨pyStrip (pyReplace (pyStrip l) "Final Answer:" ""), "FINISH", params⟩ := by
  have h1 : pyStartsWith (pyStrip l) "Thought:" = false :=
    pyStartsWith_ne_first
      (show "Final Answer:".toList = 'F' :: "inal Answer:".toList from rfl)
      (show "Thought:".toList = 'T' :: "hought:".toList from rfl) (by decide) h
  have h2 : pyStartsWith (pyStrip l) "Action:" = false :=
    pyStartsWith_ne_first
      (show "Final Answer:".toList = 'F' :: "inal Answer:".toList from rfl)
      (show "Action:".toList = 'A' :: "ction:".toList from rfl) (by decide) h
  have h3 : pyStartsWith (pyStrip l) "Action Input:" = false :=
    pyStartsWith_ne_first
      (show "Final Answer:".toList = 'F' :: "inal Answer:".toList from rfl)
      (show "Action Input:".toList = 'A' :: "ction Input:".toList from rfl) (by decide) h
  simp [parseLines, h1, h2, h3, h]

/-- C6 witness: at `["Final Answer: Done", "ignored"]` the scan stops on
the terminal line with reasoning `"Done"`, the trailing line ignored. -/
theorem final_answer_line_terminates_scan_witness :
    parseLines "" "" (JVal.obj []) 2 ["Final Answer: Done", "ignored"] =
      .ok ⟨"Done", "FINISH", JVal.obj []⟩ := by
  rw [final_answer_line_terminates_scan "" "" (JVal.obj []) 1 "Final Answer: Done"
    ["ignored"] (by decide)]
  rfl

/-- C6 counterexample — the reasoning is not the trimmed remainder of the
terminal line: on the line `"Final Answer:" ++ " Final Answer: x"` the
source's `replace` deletes both occurrences of the marker, giving `"x"`,
while the trimmed remainder is `"Final Answer: x"`. -/
theorem final_answer_remainder_counterexample :
    parse_llm_response "Final Answer: Final Answer: x" =
      .ok ⟨"x", "FINISH", JVal.obj []⟩ ∧
    "Final Answer: Final Answer: x" = "Final Answer:" ++ " Final Answer: x" ∧
    "x" ≠ pyStrip " Final Answer: x" :=
  ⟨rfl, rfl, by decide⟩

/-- C7 (amended) — a line whose stripped form begins with `Thought:` sets
the reasoning to the line with every occurrence of `Thought:` removed and
the result stripped, discarding the previous reasoning value (`thought`
does not appear on the right-hand side), and the scan continues. -/
theorem thought_line_overwrites_reasoning (thought action : String) (params : JVal)
    (fuel : Nat) (l : String) (rest : List String)
    (h : pyStartsWith (pyStrip l) "Thought:" = true) :
    parseLines thought action params (fuel + 1) (l :: rest) =
      parseLines (pyStrip (pyReplace (pyStrip l) "Thought:" "")) action params fuel rest := by
  simp [parseLines, h]

/-- C7 witness: with two reasoning lines, the prior value (here the seeded
`"prior"` and then `"first"`) is overwritten and only `"second"`
survives. -/
theorem thought_line_overwrites_reasoning_witness :
    parseLines "prior" "" (JVal.obj []) 2 ["Thought: first", "Thought: second"] =
      .ok ⟨"second", "", JVal.obj []⟩ := by
  rw [thought_line_overwrites_reasoning "prior" "" (JVal.obj []) 1 "Thought: first"
    ["Thought: second"] (by decide)]
  rfl

/-- C7 counterexample — the reasoning is not the trimmed remainder of the
line: on `"Thought:" ++ " a Thought: b"` the source's `replace` deletes
both occurrences of the marker, giving `"a  b"`, while the trimmed
remainder is `"a Thought: b"`. -/
theorem thought_remainder_counterexample :
    parse_llm_response "Thought: a Thought: b" = .ok ⟨"a  b", "", JVal.obj []⟩ ∧
    "Thought: a Thought: b" = "Thought:" ++ " a Thought: b" ∧
    "a  b" ≠ pyStrip " a Thought: b" :=
  ⟨rfl, rfl, by decide⟩

/-- Every successful branch of the `try` body yields a well-formed outcome:
an `ok` result with `success = False` carries an error message. -/
theorem execBody_ok_wellformed (pg : PageBackend) (action : String) (params : JVal)
    (r : ActionResult) (log : List PageCall)
    (h : execBody pg action params = (.ok r, log)) :
    r.success = false → r.error.isSome = true := by
  unfold execBody at h
  repeat' split at h
  all_goals simp_all
  all_goals (rcases h with ⟨hr, hl⟩; subst hr; simp)

/-- C5 — the executor never raises and converts failures: every outcome
with `success = False` has the error message populated (the `except
Exception` branch and the guard included), and an unrecognized action name
produces `{"success": False, "error": "Unknown action: ..."}` with no page
call issued at all. -/
theorem execute_action_never_raises :
    (∀ (page : Option PageBackend) (action : String) (params : JVal),
      (execute_action page action params).1.success = false →
      (execute_action page action params).1.error.isSome = true) ∧
    (∀ (pg : PageBackend) (action : String) (params : JVal),
      recognizedActions.contains action = false →
      execute_action (some pg) action params =
        (⟨false, none, some ("Unknown action: " ++ action)⟩, [])) := by
  constructor
  · intro page action params
    cases page with
    | none => intro _; rfl
    | some pg =>
      rcases hE : execBody pg action params with ⟨res, log⟩
      cases res with
      | ok r =>
        have := execBody_ok_wellformed pg action params r log hE
        simp [execute_action, hE]
        exact this
      | error e => simp [execute_action, hE]
  · intro pg action params h
    simp only [recognizedActions] at h
    have h1 : ¬ action = "navigate" := by
      intro he; subst he; simp [List.contains] at h
    have h2 : ¬ action = "click" := by
      intro he; subst he; simp [List.contains] at h
    have h3 : ¬ action = "type" := by
      intro he; subst he; simp [List.contains] at h
    have h4 : ¬ action = "get_text" := by
      intro he; subst he; simp [List.contains] at h
    have h5 : ¬ action = "screenshot" := by
      intro he; subst he; simp [List.contains] at h
    simp [execute_action, execBody, h1, h2, h3, h4, h5]

/-- A concrete page backend for instantiating the executor theorems. -/
def witnessBackend : PageBackend :=
  ⟨fun _ => .ok .null, fun _ => .ok .null, fun _ _ => .ok .null,
   fun _ => .ok (.str "Example Domain"), fun _ => .ok .null⟩

/-- C5 witness: at the unrecognized action name `"unknown"` with empty
parameters the outcome is the unknown-action failure and the page log is
empty. -/
theorem execute_action_never_raises_witness :
    execute_action (some witnessBackend) "unknown" (JVal.obj []) =
      (⟨false, none, some "Unknown action: unknown"⟩, []) :=
  execute_action_never_raises.2 witnessBackend "unknown" (JVal.obj []) (by decide)

/-- C9 — with the browser never started (`self.page` is `None`), every
action name and parameter mapping yields `{"success": False, "error":
"Browser not started"}` and no page call is issued. -/
theorem execute_action_requires_started_browser (action : String) (params : JVal) :
    execute_action none action params =
      (⟨false, none, some "Browser not started"⟩, []) := rfl

/-- C10 — no parameter validation: for each recognized action, when a
required key is absent from the parameter mapping, `params.get` silently
substitutes the empty string (for `screenshot`, the path
`"screenshot.png"`) and the page call is issued with that defaulted value
— regardless of whether the backend then succeeds or raises. -/
theorem execute_action_defaults_missing_params (pg : PageBackend)
    (kvs : List (String × JVal)) :
    (pyDictGet kvs "url" = none →
      (execute_action (some pg) "navigate" (JVal.obj kvs)).2 =
        [.goto (.str "")]) ∧
    (pyDictGet kvs "selector" = none →
      (execute_action (some pg) "click" (JVal.obj kvs)).2 =
        [.click (.str "")]) ∧
    (pyDictGet kvs "selector" = none → pyDictGet kvs "text" = none →
      (execute_action (some pg) "type" (JVal.obj kvs)).2 =
        [.fill (.str "") (.str "")]) ∧
    (pyDictGet kvs "selector" = none →
      (execute_action (some pg) "get_text" (JVal.obj kvs)).2 =
        [.text_content (.str "")]) ∧
    (pyDictGet kvs "path" = none →
      (execute_action (some pg) "screenshot" (JVal.obj kvs)).2 =
        [.screenshot (.str "screenshot.png")]) := by
  refine ⟨fun h => ?_, fun h => ?_, fun h h2 => ?_, fun h => ?_, fun h => ?_⟩
  · simp only [execute_action, execBody, pyGet, h]
    rcases hg : pg.goto (JVal.str "") with e | v <;> simp [hg]
  · simp only [execute_action, execBody, pyGet, h]
    rcases hg : pg.click (JVal.str "") with e | v <;> simp [hg]
  · simp only [execute_action, execBody, pyGet, h, h2]
    rcases hg : pg.fill (JVal.str "") (JVal.str "") with e | v <;> simp [hg]
  · simp only [execute_action, execBody, pyGet, h]
    rcases hg : pg.text_content (JVal.str "") with e | v <;> simp [hg]
  · simp only [execute_action, execBody, pyGet, h]
    rcases hg : pg.screenshot (JVal.str "screenshot.png") with e | v <;> simp [hg]

/-- C10 witness: with the empty parameter mapping, `navigate` issues a
page `goto` with the empty string url. -/
theorem execute_action_defaults_missing_params_witness :
    (execute_action (some witnessBackend) "navigate" (JVal.obj [])).2 =
      [.goto (.str "")] :=
  (execute_action_defaults_missing_params witnessBackend []).1 rfl

/-- Every event the iteration loop itself emits is a model or executor
invocation — the release events come only from the `finally`. -/
theorem loop_events_shape (model : Nat → Except String String)
    (execA : String → JVal → Except String ActionResult) :
    ∀ (fuel iter : Nat) (msgs : List PyMsg) (ev : AgentEvent),
      ev ∈ (loop model execA fuel iter msgs).events →
      (∃ i, ev = .modelCall i) ∨ (∃ a, ev = .execCall a) := by
  intro fuel
  induction fuel with
  | zero => intro iter msgs ev h; simp [loop] at h
  | succ n ih =>
    intro iter msgs ev h
    rcases hm : model iter with e | text
    · simp [loop, hm] at h
      exact Or.inl ⟨iter, h⟩
    · rcases hp : parse_llm_response text with e | d
      · simp [loop, hm, hp] at h
        exact Or.inl ⟨iter, h⟩
      · by_cases hf : d.action = "FINISH"
        · simp [loop, hm, hp, hf] at h
          exact Or.inl ⟨iter, h⟩
        · by_cases ha : d.action = ""
          · simp [loop, hm, hp, hf, ha] at h
            rcases h with h | h
            · exact Or.inl ⟨iter, h⟩
            · exact ih _ _ ev h
          · rcases he : execA d.action d.params with e | res
            · simp [loop, hm, hp, hf, ha, he] at h
              rcases h with h | h
              · exact Or.inl ⟨iter, h⟩
              · exact Or.inr ⟨d.action, h⟩
            · simp [loop, hm, hp, hf, ha, he] at h
              rcases h with h | h | h
              · exact Or.inl ⟨iter, h⟩
              · exact Or.inr ⟨d.action, h⟩
              · exact ih _ _ ev h

/-- C2 — the browser resource is released on every exit path: whatever the
model capability, the executor, the task and the iteration bound do —
terminal return, exhaustion return, or a propagating exception — the event
trace of `run` is the loop's model/executor invocations followed exactly
by the three release steps of `stop_browser`. -/
theorem run_releases_browser_on_every_exit_path
    (model : Nat → Except String String)
    (execA : String → JVal → Except String ActionResult)
    (task : String) (maxIter : Nat) :
    ∃ body : List AgentEvent,
      (run model execA task maxIter).events =
        body ++ [.closePage, .closeBrowser, .stopPlaywright] ∧
      ∀ ev ∈ body, (∃ i, ev = .modelCall i) ∨ (∃ a, ev = .execCall a) := by
  refine ⟨(loop model execA maxIter 0
    [⟨"system", create_system_prompt⟩, ⟨"user", "Task: " ++ task⟩]).events, rfl, ?_⟩
  intro ev h
  exact loop_events_shape model execA maxIter 0 _ ev h

/-- One-step unfolding of the loop at a terminal (`Final Answer`)
response, as equations on the fields. -/
theorem loop_step_finish (model : Nat → Except String String)
    (execA : String → JVal → Except String ActionResult)
    (f iter : Nat) (msgs : List PyMsg) (text : String) (d : Directive)
    (hm : model iter = .ok text) (hp : parse_llm_response text = .ok d)
    (hf : d.action = "FINISH") :
    (loop model execA (f + 1) iter msgs).result = .ok (some d.thought) ∧
    (loop model execA (f + 1) iter msgs).modelCalls = 1 ∧
    (loop model execA (f + 1) iter msgs).execCalls = 0 ∧
    (loop model execA (f + 1) iter msgs).msgs = msgs ++ [⟨"assistant", text⟩] := by
  simp [loop, hm, hp, hf]

/-- One-step unfolding of the loop at a response with a non-empty,
non-terminal action whose execution returns (the executor did not raise):
each field in terms of the tail loop on the transcript extended by the
assistant message and the observation message. -/
theorem loop_step_exec (model : Nat → Except String String)
    (execA : String → JVal → Except String ActionResult)
    (f iter : Nat) (msgs : List PyMsg) (text : String) (d : Directive)
    (res : ActionResult)
    (hm : model iter = .ok text) (hp : parse_llm_response text = .ok d)
    (hf : d.action ≠ "FINISH") (ha : d.action ≠ "")
    (he : execA d.action d.params = .ok res) :
    (loop model execA (f + 1) iter msgs).result =
      (loop model execA f (iter + 1) (msgs ++ [⟨"assistant", text⟩] ++
        [⟨"user", "Observation: " ++ json_dumps_result res⟩])).result ∧
    (loop model execA (f + 1) iter msgs).modelCalls =
      (loop model execA f (iter + 1) (msgs ++ [⟨"assistant", text⟩] ++
        [⟨"user", "Observation: " ++ json_dumps_result res⟩])).modelCalls + 1 ∧
    (loop model execA (f + 1) iter msgs).execCalls =
      (loop model execA f (iter + 1) (msgs ++ [⟨"assistant", text⟩] ++
        [⟨"user", "Observation: " ++ json_dumps_result res⟩])).execCalls + 1 ∧
    (loop model execA (f + 1) iter msgs).msgs =
      (loop model execA f (iter + 1) (msgs ++ [⟨"assistant", text⟩] ++
        [⟨"user", "Observation: " ++ json_dumps_result res⟩])).msgs := by
  simp [loop, hm, hp, hf, ha, he]

/-- One-step unfolding of the loop at a response with no action and no
terminal marker: the clarification nudge, each field in terms of the tail
loop. -/
theorem loop_step_clar (model : Nat → Except String String)
    (execA : String → JVal → Except String ActionResult)
    (f iter : Nat) (msgs : List PyMsg) (text : String) (d : Directive)
    (hm : model iter = .ok text) (hp : parse_llm_response text = .ok d)
    (_hf : d.action ≠ "FINISH") (ha : d.action = "") :
    (loop model execA (f + 1) iter msgs).result =
      (loop model execA f (iter + 1) (msgs ++ [⟨"assistant", text⟩] ++
        [⟨"user", clarification_message⟩])).result ∧
    (loop model execA (f + 1) iter msgs).modelCalls =
      (loop model execA f (iter + 1) (msgs ++ [⟨"assistant", text⟩] ++
        [⟨"user", clarification_message⟩])).modelCalls + 1 ∧
    (loop model execA (f + 1) iter msgs).execCalls =
      (loop model execA f (iter + 1) (msgs ++ [⟨"assistant", text⟩] ++
        [⟨"user", clarification_message⟩])).execCalls ∧
    (loop model execA (f + 1) iter msgs).msgs =
      (loop model execA f (iter + 1) (msgs ++ [⟨"assistant", text⟩] ++
        [⟨"user", clarification_message⟩])).msgs := by
  simp [loop, hm, hp, ha]

/-- Terminal-iteration behavior of the loop: with the model scripted by
`resp` (no model failure) and the real, non-raising executor shape, if the
first `n` parses succeed with a non-`FINISH` action and the parse of
response `n` yields `FINISH`, the loop returns that reasoning after
exactly `n + 1` model invocations and at most `n` executor invocations. -/
theorem loop_terminal (resp : Nat → String) (execF : String → JVal → ActionResult) :
    ∀ (n fuel iter : Nat) (msgs : List PyMsg) (d : Directive),
      n < fuel →
      (∀ k, k < n → ∃ dk, parse_llm_response (resp (iter + k)) = .ok dk ∧
        dk.action ≠ "FINISH") →
      parse_llm_response (resp (iter + n)) = .ok d →
      d.action = "FINISH" →
      (loop (fun i => .ok (resp i)) (fun a p => .ok (execF a p)) fuel iter msgs).result =
          .ok (some d.thought) ∧
      (loop (fun i => .ok (resp i)) (fun a p => .ok (execF a p)) fuel iter msgs).modelCalls =
          n + 1 ∧
      (loop (fun i => .ok (resp i)) (fun a p => .ok (execF a p)) fuel iter msgs).execCalls ≤ n := by
  intro n
  induction n with
  | zero =>
    intro fuel iter msgs d hfuel hpre hd hfin
    obtain ⟨f, rfl⟩ : ∃ f, fuel = f + 1 := ⟨fuel - 1, by omega⟩
    rw [Nat.add_zero] at hd
    obtain ⟨e1, e2, e3, _⟩ := loop_step_finish (fun i => .ok (resp i))
      (fun a p => .ok (execF a p)) f iter msgs (resp iter) d rfl hd hfin
    exact ⟨e1, by rw [e2], by rw [e3]⟩
  | succ m ih =>
    intro fuel iter msgs d hfuel hpre hd hfin
    obtain ⟨f, rfl⟩ : ∃ f, fuel = f + 1 := ⟨fuel - 1, by omega⟩
    obtain ⟨d0, hd0, hd0f⟩ := hpre 0 (Nat.succ_pos m)
    rw [Nat.add_zero] at hd0
    have hpre1 : ∀ k, k < m → ∃ dk,
        parse_llm_response (resp (iter + 1 + k)) = .ok dk ∧ dk.action ≠ "FINISH" := by
      intro k hk
      have := hpre (k + 1) (by omega)
      rwa [show iter + (k + 1) = iter + 1 + k by omega] at this
    have hd1 : parse_llm_response (resp (iter + 1 + m)) = .ok d := by
      rwa [show iter + (m + 1) = iter + 1 + m by omega] at hd
    by_cases ha : d0.action = ""
    · obtain ⟨e1, e2, e3, _⟩ := loop_step_clar (fun i => .ok (resp i))
        (fun a p => .ok (execF a p)) f iter msgs (resp iter) d0 rfl hd0 hd0f ha
      have hrec := ih f (iter + 1)
        (msgs ++ [⟨"assistant", resp iter⟩] ++ [⟨"user", clarification_message⟩]) d
        (by omega) hpre1 hd1 hfin
      exact ⟨e1.trans hrec.1, by rw [e2, hrec.2.1],
        by rw [e3]; have := hrec.2.2; omega⟩
    · obtain ⟨e1, e2, e3, _⟩ := loop_step_exec (fun i => .ok (resp i))
        (fun a p => .ok (execF a p)) f iter msgs (resp iter) d0
        (execF d0.action d0.params) rfl hd0 hd0f ha rfl
      have hrec := ih f (iter + 1)
        (msgs ++ [⟨"assistant", resp iter⟩] ++
          [⟨"user", "Observation: " ++ json_dumps_result (execF d0.action d0.params)⟩]) d
        (by omega) hpre1 hd1 hfin
      exact ⟨e1.trans hrec.1, by rw [e2, hrec.2.1],
        by rw [e3]; have := hrec.2.2; omega⟩

/-- C3 — if the model first returns the terminal marker on iteration `N`
(responses scripted by `resp`; parses of the earlier iterations succeed
with a non-terminal action; the executor has the real never-raising shape),
then `run` makes exactly `N` model invocations, at most `N - 1` executor
invocations, and returns the reasoning parsed from response `N`. -/
theorem run_terminal_iteration_counts (resp : Nat → String)
    (execF : String → JVal → ActionResult) (task : String)
    (maxIter N : Nat) (d : Directive)
    (h1 : 1 ≤ N) (h2 : N ≤ maxIter)
    (h3 : ∀ k, k < N - 1 → ∃ dk, parse_llm_response (resp k) = .ok dk ∧
      dk.action ≠ "FINISH")
    (h4 : parse_llm_response (resp (N - 1)) = .ok d)
    (h5 : d.action = "FINISH") :
    (run (fun i => .ok (resp i)) (fun a p => .ok (execF a p)) task maxIter).result =
        .ok d.thought ∧
    (run (fun i => .ok (resp i)) (fun a p => .ok (execF a p)) task maxIter).modelCalls =
        N ∧
    (run (fun i => .ok (resp i)) (fun a p => .ok (execF a p)) task maxIter).execCalls ≤
        N - 1 := by
  have hl := loop_terminal resp execF (N - 1) maxIter 0
    [⟨"system", create_system_prompt⟩, ⟨"user", "Task: " ++ task⟩] d
    (by omega)
    (by intro k hk; simpa using h3 k hk)
    (by simpa using h4) h5
  refine ⟨?_, ?_, ?_⟩
  · show (match (loop (fun i => .ok (resp i)) (fun a p => .ok (execF a p)) maxIter 0
      [⟨"system", create_system_prompt⟩, ⟨"user", "Task: " ++ task⟩]).result with
      | Except.ok (some t) => Except.ok t
      | Except.ok none => Except.ok exhaustion_message
      | Except.error e => Except.error e) = Except.ok d.thought
    rw [hl.1]
  · show (loop (fun i => .ok (resp i)) (fun a p => .ok (execF a p)) maxIter 0
      [⟨"system", create_system_prompt⟩, ⟨"user", "Task: " ++ task⟩]).modelCalls = N
    rw [hl.2.1]; omega
  · show (loop (fun i => .ok (resp i)) (fun a p => .ok (execF a p)) maxIter 0
      [⟨"system", create_system_prompt⟩, ⟨"user", "Task: " ++ task⟩]).execCalls ≤ N - 1
    exact hl.2.2

/-- A scripted model for the C3 witness: one non-terminal reasoning-only
response, then the terminal marker. -/
def terminalScript : Nat → String :=
  fun i => if i = 0 then "Thought: planning" else "Final Answer: done"

/-- An executor shape for the witnesses: always the failure outcome. -/
def failExec : String → JVal → ActionResult :=
  fun _ _ => ⟨false, none, some "boom"⟩

/-- C3 witness: terminal marker on iteration 2 of the default 10 — exactly
2 model invocations, at most 1 executor invocation, reasoning returned. -/
theorem run_terminal_iteration_counts_witness :
    (run (fun i => .ok (terminalScript i)) (fun a p => .ok (failExec a p)) "t"
      default_max_iterations).result = .ok "done" ∧
    (run (fun i => .ok (terminalScript i)) (fun a p => .ok (failExec a p)) "t"
      default_max_iterations).modelCalls = 2 ∧
    (run (fun i => .ok (terminalScript i)) (fun a p => .ok (failExec a p)) "t"
      default_max_iterations).execCalls ≤ 1 := by
  refine run_terminal_iteration_counts terminalScript failExec "t"
    default_max_iterations 2 ⟨"done", "FINISH", JVal.obj []⟩
    (by decide) (by decide) ?_ rfl rfl
  intro k hk
  have hk0 : k = 0 := by omega
  subst hk0
  exact ⟨⟨"planning", "", JVal.obj []⟩, rfl, by decide⟩

/-- Exhaustion behavior of the loop: if every scripted response within the
fuel parses to a non-`FINISH` action, the loop falls out of the bounded
iteration range with exactly `fuel` model invocations. -/
theorem loop_exhaust (resp : Nat → String) (execF : String → JVal → ActionResult) :
    ∀ (fuel iter : Nat) (msgs : List PyMsg),
      (∀ k, k < fuel → ∃ dk, parse_llm_response (resp (iter + k)) = .ok dk ∧
        dk.action ≠ "FINISH") →
      (loop (fun i => .ok (resp i)) (fun a p => .ok (execF a p)) fuel iter msgs).result =
          .ok none ∧
      (loop (fun i => .ok (resp i)) (fun a p => .ok (execF a p)) fuel iter msgs).modelCalls =
          fuel := by
  intro fuel
  induction fuel with
  | zero => intro iter msgs _; exact ⟨rfl, rfl⟩
  | succ f ih =>
    intro iter msgs hpre
    obtain ⟨d0, hd0, hd0f⟩ := hpre 0 (Nat.succ_pos f)
    rw [Nat.add_zero] at hd0
    have hpre1 : ∀ k, k < f → ∃ dk,
        parse_llm_response (resp (iter + 1 + k)) = .ok dk ∧ dk.action ≠ "FINISH" := by
      intro k hk
      have := hpre (k + 1) (by omega)
      rwa [show iter + (k + 1) = iter + 1 + k by omega] at this
    by_cases ha : d0.action = ""
    · obtain ⟨e1, e2, _, _⟩ := loop_step_clar (fun i => .ok (resp i))
        (fun a p => .ok (execF a p)) f iter msgs (resp iter) d0 rfl hd0 hd0f ha
      have hrec := ih (iter + 1)
        (msgs ++ [⟨"assistant", resp iter⟩] ++ [⟨"user", clarification_message⟩]) hpre1
      exact ⟨e1.trans hrec.1, by rw [e2, hrec.2]⟩
    · obtain ⟨e1, e2, _, _⟩ := loop_step_exec (fun i => .ok (resp i))
        (fun a p => .ok (execF a p)) f iter msgs (resp iter) d0
        (execF d0.action d0.params) rfl hd0 hd0f ha rfl
      have hrec := ih (iter + 1)
        (msgs ++ [⟨"assistant", resp iter⟩] ++
          [⟨"user", "Observation: " ++ json_dumps_result (execF d0.action d0.params)⟩]) hpre1
      exact ⟨e1.trans hrec.1, by rw [e2, hrec.2]⟩

/-- C4 — with the default bound of 10 iterations, if no scripted response
within the bound parses to the terminal marker, `run` returns the fixed
exhaustion message after exactly `max_iterations` (10) model
invocations. -/
theorem run_exhausts_after_max_iterations (resp : Nat → String)
    (execF : String → JVal → ActionResult) (task : String)
    (h : ∀ k, k < default_max_iterations → ∃ dk,
      parse_llm_response (resp k) = .ok dk ∧ dk.action ≠ "FINISH") :
    (run (fun i => .ok (resp i)) (fun a p => .ok (execF a p)) task
        default_max_iterations).result =
      .ok "Maximum iterations reached without completion." ∧
    (run (fun i => .ok (resp i)) (fun a p => .ok (execF a p)) task
        default_max_iterations).modelCalls = default_max_iterations ∧
    default_max_iterations = 10 := by
  have hl := loop_exhaust resp execF default_max_iterations 0
    [⟨"system", create_system_prompt⟩, ⟨"user", "Task: " ++ task⟩]
    (by intro k hk; simpa using h k hk)
  refine ⟨?_, ?_, rfl⟩
  · show (match (loop (fun i => .ok (resp i)) (fun a p => .ok (execF a p))
      default_max_iterations 0
      [⟨"system", create_system_prompt⟩, ⟨"user", "Task: " ++ task⟩]).result with
      | Except.ok (some t) => Except.ok t
      | Except.ok none => Except.ok exhaustion_message
      | Except.error e => Except.error e) =
      Except.ok "Maximum iterations reached without completion."
    rw [hl.1]
    rfl
  · show (loop (fun i => .ok (resp i)) (fun a p => .ok (execF a p))
      default_max_iterations 0
      [⟨"system", create_system_prompt⟩, ⟨"user", "Task: " ++ task⟩]).modelCalls =
      default_max_iterations
    exact hl.2

/-- A scripted model for the C4 witness: reasoning only, never terminal. -/
def neverTerminalScript : Nat → String :=
  fun _ => "Thought: still thinking"

/-- C4 witness: with a never-terminal script, `run` at the default bound
returns the exhaustion message after exactly 10 model invocations. -/
theorem run_exhausts_after_max_iterations_witness :
    (run (fun i => .ok (neverTerminalScript i)) (fun a p => .ok (failExec a p)) "t"
        default_max_iterations).result =
      .ok "Maximum iterations reached without completion." ∧
    (run (fun i => .ok (neverTerminalScript i)) (fun a p => .ok (failExec a p)) "t"
        default_max_iterations).modelCalls = default_max_iterations ∧
    default_max_iterations = 10 := by
  refine run_exhausts_after_max_iterations neverTerminalScript failExec "t" ?_
  intro k hk
  exact ⟨⟨"still thinking", "", JVal.obj []⟩, rfl, by decide⟩

/-- The shape one iteration may contribute to the transcript: one
assistant message alone, or one assistant message followed by one user
message that is either an `Observation: `-tagged outcome or the fixed
clarification request. -/
def iterationBlock (b : List PyMsg) : Prop :=
  (∃ t, b = [⟨"assistant", t⟩]) ∨
  (∃ t c, b = [⟨"assistant", t⟩, ⟨"user", c⟩] ∧
    ((∃ o, c = "Observation: " ++ o) ∨ c = clarification_message))

/-- The loop only ever appends to the transcript it is given, in
per-iteration blocks: each block is an assistant message with at most one
follow-up user message, and only the last block may lack the follow-up. -/
theorem loop_transcript_blocks (model : Nat → Except String String)
    (execA : String → JVal → Except String ActionResult) :
    ∀ (fuel iter : Nat) (msgs : List PyMsg), ∃ blocks : List (List PyMsg),
      (loop model execA fuel iter msgs).msgs = msgs ++ blocks.flatten ∧
      (∀ b ∈ blocks, iterationBlock b) ∧
      (∀ b ∈ blocks.dropLast, ∃ t c, b = [⟨"assistant", t⟩, ⟨"user", c⟩]) := by
  intro fuel
  induction fuel with
  | zero =>
    intro iter msgs
    exact ⟨[], by simp [loop], by simp, by simp⟩
  | succ f ih =>
    intro iter msgs
    rcases hm : model iter with e | text
    · exact ⟨[], by simp [loop, hm], by simp, by simp⟩
    · rcases hp : parse_llm_response text with e | d
      · refine ⟨[[⟨"assistant", text⟩]], ?_, ?_, ?_⟩
        · simp [loop, hm, hp]
        · intro b hb
          simp at hb
          subst hb
          exact Or.inl ⟨text, rfl⟩
        · simp
      · by_cases hf : d.action = "FINISH"
        · refine ⟨[[⟨"assistant", text⟩]], ?_, ?_, ?_⟩
          · simp [loop, hm, hp, hf]
          · intro b hb
            simp at hb
            subst hb
            exact Or.inl ⟨text, rfl⟩
          · simp
        · by_cases ha : d.action = ""
          · obtain ⟨_, _, _, e4⟩ := loop_step_clar model execA f iter msgs text d hm hp hf ha
            obtain ⟨blocks1, hmsgs, hshape, hfull⟩ := ih (iter + 1)
              (msgs ++ [⟨"assistant", text⟩] ++ [⟨"user", clarification_message⟩])
            refine ⟨[⟨"assistant", text⟩, ⟨"user", clarification_message⟩] :: blocks1,
              ?_, ?_, ?_⟩
            · rw [e4, hmsgs]
              simp
            · intro b hb
              rcases List.mem_cons.mp hb with hb | hb
              · subst hb
                exact Or.inr ⟨text, clarification_message, rfl, Or.inr rfl⟩
              · exact hshape b hb
            · intro b hb
              cases blocks1 with
              | nil => simp at hb
              | cons x xs =>
                rw [show (([⟨"assistant", text⟩, ⟨"user", clarification_message⟩] :
                    List PyMsg) :: x :: xs).dropLast =
                    [⟨"assistant", text⟩, ⟨"user", clarification_message⟩] ::
                      (x :: xs).dropLast from rfl] at hb
                rcases List.mem_cons.mp hb with hb | hb
                · subst hb
                  exact ⟨text, clarification_message, rfl⟩
                · exact hfull b hb
          · rcases he : execA d.action d.params with e | res
            · refine ⟨[[⟨"assistant", text⟩]], ?_, ?_, ?_⟩
              · simp [loop, hm, hp, hf, ha, he]
              · intro b hb
                simp at hb
                subst hb
                exact Or.inl ⟨text, rfl⟩
              · simp
            · obtain ⟨_, _, _, e4⟩ :=
                loop_step_exec model execA f iter msgs text d res hm hp hf ha he
              obtain ⟨blocks1, hmsgs, hshape, hfull⟩ := ih (iter + 1)
                (msgs ++ [⟨"assistant", text⟩] ++
                  [⟨"user", "Observation: " ++ json_dumps_result res⟩])
              refine ⟨[⟨"assistant", text⟩,
                ⟨"user", "Observation: " ++ json_dumps_result res⟩] :: blocks1, ?_, ?_, ?_⟩
              · rw [e4, hmsgs]
                simp
              · intro b hb
                rcases List.mem_cons.mp hb with hb | hb
                · subst hb
                  exact Or.inr ⟨text, "Observation: " ++ json_dumps_result res, rfl,
                    Or.inl ⟨json_dumps_result res, rfl⟩⟩
                · exact hshape b hb
              · intro b hb
                cases blocks1 with
                | nil => simp at hb
                | cons x xs =>
                  rw [show (([⟨"assistant", text⟩,
                      ⟨"user", "Observation: " ++ json_dumps_result res⟩] :
                      List PyMsg) :: x :: xs).dropLast =
                      [⟨"assistant", text⟩,
                        ⟨"user", "Observation: " ++ json_dumps_result res⟩] ::
                        (x :: xs).dropLast from rfl] at hb
                  rcases List.mem_cons.mp hb with hb | hb
                  · subst hb
                    exact ⟨text, "Observation: " ++ json_dumps_result res, rfl⟩
                  · exact hfull b hb

/-- C8 — the transcript is append-only and block-structured: the loop only
extends the transcript it is given (never rewrites it), and the final
transcript is the initial system + task pair followed by per-iteration
blocks, each one assistant message with either exactly one follow-up user
message (an observation or the clarification request) or — for the last
block only — no follow-up. -/
theorem run_transcript_append_only (model : Nat → Except String String)
    (execA : String → JVal → Except String ActionResult)
    (task : String) (maxIter : Nat) :
    (∀ (fuel iter : Nat) (msgs : List PyMsg), ∃ ext,
      (loop model execA fuel iter msgs).msgs = msgs ++ ext) ∧
    ∃ blocks : List (List PyMsg),
      (run model execA task maxIter).msgs =
        [⟨"system", create_system_prompt⟩, ⟨"user", "Task: " ++ task⟩] ++
          blocks.flatten ∧
      (∀ b ∈ blocks, iterationBlock b) ∧
      (∀ b ∈ blocks.dropLast, ∃ t c, b = [⟨"assistant", t⟩, ⟨"user", c⟩]) := by
  constructor
  · intro fuel iter msgs
    obtain ⟨blocks, hmsgs, _, _⟩ := loop_transcript_blocks model execA fuel iter msgs
    exact ⟨blocks.flatten, hmsgs⟩
  · obtain ⟨blocks, hmsgs, h2, h3⟩ := loop_transcript_blocks model execA maxIter 0
      [⟨"system", create_system_prompt⟩, ⟨"user", "Task: " ++ task⟩]
    exact ⟨blocks, hmsgs, h2, h3⟩
